import Mathlib

/-
Verification development for the gofb2 FB2 parsing library.

The Go source is embedded shallowly:
- xml.Name, xml.Attr and the three token kinds (StartElement, EndElement,
  CharData) become plain Lean structures and an inductive type.
- Go nodes live behind interface pointers and are mutated in place; we model
  the pointer graph explicitly with a heap: a list of objects indexed by
  allocation order.  A node's `Content` list stores either raw character data
  or the heap id of a child node, exactly mirroring the `[]Contenter` slices
  holding pointers in Go.
- `Parser`, `ParseToken` and `Parse` follow src/unnamed/part_000 line by line;
  the nil-interface method call on a close tag with no open element is modelled
  by an explicit `goPanic` result.
-/

/-- Models Go xml.Name: a namespace-qualified tag or attribute name. -/
structure XmlName where
  Space : String
  Local : String
deriving DecidableEq, Repr

/-- Models Go xml.Attr: a namespace-qualified name with a value. -/
structure Attr where
  Name : XmlName
  Value : String
deriving DecidableEq, Repr

/-- Models Go xml.Token restricted to the three kinds ParseToken handles. -/
inductive Token where
  | startElement (name : XmlName) (attrs : List Attr)
  | endElement (name : XmlName)
  | charData (s : String)
deriving DecidableEq, Repr

/-- One entry of a node's Content list (Go `[]Contenter`): raw character data
or a pointer (heap id) to a child node. -/
inductive ContentRef where
  | cd (s : String)
  | ref (id : Nat)
deriving DecidableEq, Repr

/-- Field selector for `stringNode`, which in Go holds a pointer `s *string`
into a field of another node; here we record the target object and field. -/
inductive StrField where
  | tableID
deriving DecidableEq, Repr

/-- Attribute fields of Go type `Link` (content.go).  The field `Type'` models
the Go field `Type` (unqualified type attribute); `XlinkType` / `XlinkHref`
are the xlink-namespaced fields. -/
structure Link where
  XlinkType : String
  XlinkHref : String
  Type' : String
deriving DecidableEq, Repr

/-- The state of one heap object, one constructor per embedded Go node type:
StyleType, NamedStyleType, P, Link, StyleLinkType, InlineImage, Table, TR, TD
and stringNode.  Content-bearing types carry their `Content` slice; Table
carries its `TR []*TR` slice as heap ids. -/
inductive NodeData where
  | styleType (lang : String) (content : List ContentRef)
  | namedStyleType (nm lang : String) (content : List ContentRef)
  | pNode (id style lang : String) (content : List ContentRef)
  | link (l : Link) (content : List ContentRef)
  | styleLinkType (content : List ContentRef)
  | inlineImage (xlinkType xlinkHref alt : String)
  | table (trs : List Nat) (tId style : String)
  | trNode (align : String) (content : List ContentRef)
  | tdNode (id style : String) (colspan rowspan : Int) (align valign lang : String)
      (content : List ContentRef)
  | stringNode (target : Nat) (fld : StrField)
deriving DecidableEq, Repr

/-- A heap object: the XMLName recorded by `SetXMLName` plus the node state. -/
structure Obj where
  xmlName : XmlName
  data : NodeData
deriving DecidableEq, Repr

/-- Look up the node state stored at heap id `i`. -/
def heapGet (heap : List Obj) (i : Nat) : Option NodeData :=
  (heap.get? i).map (·.data)

/-- Replace the node state at heap id `i`, keeping the recorded XMLName. -/
def heapSetData (heap : List Obj) (i : Nat) (d : NodeData) : List Obj :=
  match heap.get? i with
  | some o => heap.set i ⟨o.xmlName, d⟩
  | none => heap

/-- Models `SetXMLName` on object `i` (Go baseNode.SetXMLName). -/
def heapSetName (heap : List Obj) (i : Nat) (nm : XmlName) : List Obj :=
  match heap.get? i with
  | some o => heap.set i ⟨nm, o.data⟩
  | none => heap

/-- Models `GetXMLName` on object `i` (Go baseNode.GetXMLName). -/
def heapGetName (heap : List Obj) (i : Nat) : XmlName :=
  match heap.get? i with
  | some o => o.xmlName
  | none => ⟨"", ""⟩

/-- Models contentBase.appendContent: append one entry to a node's Content. -/
def appendContent (d : NodeData) (c : ContentRef) : NodeData :=
  match d with
  | .styleType lang content => .styleType lang (content ++ [c])
  | .namedStyleType nm lang content => .namedStyleType nm lang (content ++ [c])
  | .pNode id style lang content => .pNode id style lang (content ++ [c])
  | .link l content => .link l (content ++ [c])
  | .styleLinkType content => .styleLinkType (content ++ [c])
  | .trNode align content => .trNode align (content ++ [c])
  | .tdNode id style cs rs align valign lang content =>
      .tdNode id style cs rs align valign lang (content ++ [c])
  | other => other

/-- Allocate a child object (Go `&T{}` inside a tagCallback) and append a
pointer to it to the parent's Content (Go appendContent), returning the new
heap and the child's id.  The child's XMLName starts as the zero value; the
driver sets it afterwards, visible through the pointer as in Go. -/
def allocChild (heap : List Obj) (selfId : Nat) (self : NodeData) (child : NodeData) :
    List Obj × Nat :=
  let childId := heap.length
  let heap := heap ++ [⟨⟨"", ""⟩, child⟩]
  (heapSetData heap selfId (appendContent self (.ref childId)), childId)

/-- Allocate a child object without touching the parent's Content (used by
Table.tagCallback for `id` and `tr`, which store the child elsewhere). -/
def allocOnly (heap : List Obj) (child : NodeData) : List Obj × Nat :=
  (heap ++ [⟨⟨"", ""⟩, child⟩], heap.length)

/-- Models strconv.Atoi: optional sign followed by decimal digits; on a syntax
error it returns 0 together with the error, as Go does. -/
def goAtoi (s : String) : Int × Option String :=
  let chars := s.toList
  let signAndDigits : Int × List Char :=
    match chars with
    | '-' :: rest => (-1, rest)
    | '+' :: rest => (1, rest)
    | _ => (1, chars)
  if signAndDigits.2 = [] ∨ ¬ signAndDigits.2.all (·.isDigit) then
    (0, some ("invalid syntax: " ++ s))
  else
    (signAndDigits.1 *
      (signAndDigits.2.foldl (fun acc c => acc * 10 + (c.toNat - 48)) (0 : Nat) : Int), none)

/-- Models StyleType.tagCallback (content.go): style, a, image, and the six
inline markup tags produce children appended to the mixed Content; anything
else falls through to baseNode.tagCallback's error. -/
def StyleType.tagCallback (heap : List Obj) (selfId : Nat) (self : NodeData)
    (name : XmlName) : Except String (List Obj × Nat) :=
  match name.Local with
  | "style" => .ok (allocChild heap selfId self (.namedStyleType "" "" []))
  | "a" => .ok (allocChild heap selfId self (.link ⟨"", "", ""⟩ []))
  | "image" => .ok (allocChild heap selfId self (.inlineImage "" "" ""))
  | "strong" => .ok (allocChild heap selfId self (.styleType "" []))
  | "emphasis" => .ok (allocChild heap selfId self (.styleType "" []))
  | "strikethrough" => .ok (allocChild heap selfId self (.styleType "" []))
  | "sub" => .ok (allocChild heap selfId self (.styleType "" []))
  | "sup" => .ok (allocChild heap selfId self (.styleType "" []))
  | "code" => .ok (allocChild heap selfId self (.styleType "" []))
  | _ => .error ("unexpected tag " ++ name.Local)

/-- Models StyleLinkType.tagCallback (content.go): image or one of the markup
tags; hyperlinks cannot nest, so no `a` case. -/
def StyleLinkType.tagCallback (heap : List Obj) (selfId : Nat) (self : NodeData)
    (name : XmlName) : Except String (List Obj × Nat) :=
  match name.Local with
  | "image" => .ok (allocChild heap selfId self (.inlineImage "" "" ""))
  | "style" => .ok (allocChild heap selfId self (.styleLinkType []))
  | "strong" => .ok (allocChild heap selfId self (.styleLinkType []))
  | "emphasis" => .ok (allocChild heap selfId self (.styleLinkType []))
  | "strikethrough" => .ok (allocChild heap selfId self (.styleLinkType []))
  | "sub" => .ok (allocChild heap selfId self (.styleLinkType []))
  | "sup" => .ok (allocChild heap selfId self (.styleLinkType []))
  | "code" => .ok (allocChild heap selfId self (.styleLinkType []))
  | _ => .error ("unexpected tag " ++ name.Local)

/-- Models Table.tagCallback (content.go): `id` returns a stringNode pointing
at the table's ID field (not placed in content); `tr` allocates a TR and
records its pointer in the table's TR slice. -/
def Table.tagCallback (heap : List Obj) (selfId : Nat) (trs : List Nat)
    (tId style : String) (name : XmlName) : Except String (List Obj × Nat) :=
  match name.Local with
  | "id" => .ok (allocOnly heap (.stringNode selfId .tableID))
  | "tr" =>
      let alloc := allocOnly heap (.trNode "" [])
      .ok (heapSetData alloc.1 selfId (.table (trs ++ [alloc.2]) tId style), alloc.2)
  | _ => .error ("unexpected tag " ++ name.Local)

/-- Models TR.tagCallback (content.go): th or td cells appended to Content. -/
def TR.tagCallback (heap : List Obj) (selfId : Nat) (self : NodeData)
    (name : XmlName) : Except String (List Obj × Nat) :=
  match name.Local with
  | "th" => .ok (allocChild heap selfId self (.tdNode "" "" 0 0 "" "" "" []))
  | "td" => .ok (allocChild heap selfId self (.tdNode "" "" 0 0 "" "" "" []))
  | _ => .error ("unexpected tag " ++ name.Local)

/-- Dispatches Node.tagCallback by the dynamic type of the current node,
modelling Go interface method dispatch.  Returns the updated heap and the id
of the child node, or the error the callback returned. -/
def tagCallback (heap : List Obj) (selfId : Nat) (name : XmlName) :
    Except String (List Obj × Nat) :=
  match heapGet heap selfId with
  | none => .error "missing node"
  | some self =>
    match self with
    | .styleType _ _ => StyleType.tagCallback heap selfId self name
    | .namedStyleType _ _ _ => StyleType.tagCallback heap selfId self name
    | .pNode _ _ _ _ => StyleType.tagCallback heap selfId self name
    | .tdNode _ _ _ _ _ _ _ _ => StyleType.tagCallback heap selfId self name
    | .link _ _ => StyleLinkType.tagCallback heap selfId self name
    | .styleLinkType _ => StyleLinkType.tagCallback heap selfId self name
    | .table trs tId style => Table.tagCallback heap selfId trs tId style name
    | .trNode _ _ => TR.tagCallback heap selfId self name
    | .inlineImage _ _ _ => .error ("unexpected tag " ++ name.Local)
    | .stringNode _ _ => .error ("unexpected tag " ++ name.Local)

/-- Models Link.attrCallback (content.go lines 502-516): an unqualified `type`
goes to Type', a namespaced one to XlinkType; `href` goes to XlinkHref with no
namespace check; anything else is an error. -/
def Link.attrCallback (l : Link) (a : Attr) : Link × Option String :=
  match a.Name.Local with
  | "type" =>
      if a.Name.Space = "" then ({ l with Type' := a.Value }, none)
      else ({ l with XlinkType := a.Value }, none)
  | "href" => ({ l with XlinkHref := a.Value }, none)
  | _ => (l, some ("unknown attr " ++ a.Name.Local))

/-- Dispatches Node.attrCallback by the dynamic type of the current node.
Returns the heap after any mutation the callback performed (TD writes the
Atoi result even when it errors) together with the optional error. -/
def attrCallback (heap : List Obj) (selfId : Nat) (a : Attr) :
    List Obj × Option String :=
  match heapGet heap selfId with
  | none => (heap, some "missing node")
  | some self =>
    match self with
    | .styleType lang content =>
        if a.Name.Local = "lang" then
          (heapSetData heap selfId (.styleType a.Value content), none)
        else (heap, some ("unknown attr " ++ a.Name.Local))
    | .namedStyleType nm lang content =>
        if a.Name.Local = "name" then
          (heapSetData heap selfId (.namedStyleType a.Value lang content), none)
        else if a.Name.Local = "lang" then
          (heapSetData heap selfId (.namedStyleType nm a.Value content), none)
        else (heap, some ("unknown attr " ++ a.Name.Local))
    | .pNode id style lang content =>
        if a.Name.Local = "style" then
          (heapSetData heap selfId (.pNode id a.Value lang content), none)
        else if a.Name.Local = "id" then
          (heapSetData heap selfId (.pNode a.Value style lang content), none)
        else if a.Name.Local = "lang" then
          (heapSetData heap selfId (.pNode id style a.Value content), none)
        else (heap, some ("unknown attr " ++ a.Name.Local))
    | .link l content =>
        let res := Link.attrCallback l a
        (heapSetData heap selfId (.link res.1 content), res.2)
    | .styleLinkType _ => (heap, some ("unexpected attr " ++ a.Name.Local))
    | .inlineImage xlinkType xlinkHref alt =>
        if a.Name.Local = "type" then
          (heapSetData heap selfId (.inlineImage a.Value xlinkHref alt), none)
        else if a.Name.Local = "href" then
          (heapSetData heap selfId (.inlineImage xlinkType a.Value alt), none)
        else if a.Name.Local = "alt" then
          (heapSetData heap selfId (.inlineImage xlinkType xlinkHref a.Value), none)
        else (heap, some ("unexpected attr " ++ a.Name.Local))
    | .table trs tId style =>
        if a.Name.Local = "style" then
          (heapSetData heap selfId (.table trs tId a.Value), none)
        else (heap, some ("unexpected attr " ++ a.Name.Local))
    | .trNode align content =>
        if a.Name.Local = "align" then
          (heapSetData heap selfId (.trNode a.Value content), none)
        else (heap, some ("unexpected attr " ++ a.Name.Local))
    | .tdNode id style cs rs align valign lang content =>
        if a.Name.Local = "id" then
          (heapSetData heap selfId (.tdNode a.Value style cs rs align valign lang content), none)
        else if a.Name.Local = "style" then
          (heapSetData heap selfId (.tdNode id a.Value cs rs align valign lang content), none)
        else if a.Name.Local = "colspan" then
          let res := goAtoi a.Value
          (heapSetData heap selfId (.tdNode id style res.1 rs align valign lang content), res.2)
        else if a.Name.Local = "rowspan" then
          let res := goAtoi a.Value
          (heapSetData heap selfId (.tdNode id style cs res.1 align valign lang content), res.2)
        else if a.Name.Local = "align" then
          (heapSetData heap selfId (.tdNode id style cs rs a.Value valign lang content), none)
        else if a.Name.Local = "valign" then
          (heapSetData heap selfId (.tdNode id style cs rs align a.Value lang content), none)
        else (heap, some ("unexpected attr " ++ a.Name.Local))
    | .stringNode _ _ => (heap, some ("unexpected attr " ++ a.Name.Local))

/-- Dispatches Node.charDataCallback by the dynamic type of the current node:
mixed-content types append a copy of the text to Content; Table, TR and
InlineImage inherit baseNode's no-op; stringNode writes through its pointer
into the target object's field. -/
def charDataCallback (heap : List Obj) (selfId : Nat) (s : String) :
    List Obj × Option String :=
  match heapGet heap selfId with
  | none => (heap, none)
  | some self =>
    match self with
    | .styleType _ _ => (heapSetData heap selfId (appendContent self (.cd s)), none)
    | .namedStyleType _ _ _ => (heapSetData heap selfId (appendContent self (.cd s)), none)
    | .pNode _ _ _ _ => (heapSetData heap selfId (appendContent self (.cd s)), none)
    | .tdNode _ _ _ _ _ _ _ _ => (heapSetData heap selfId (appendContent self (.cd s)), none)
    | .link _ _ => (heapSetData heap selfId (appendContent self (.cd s)), none)
    | .styleLinkType _ => (heapSetData heap selfId (appendContent self (.cd s)), none)
    | .inlineImage _ _ _ => (heap, none)
    | .table _ _ _ => (heap, none)
    | .trNode _ _ => (heap, none)
    | .stringNode target fld =>
        match fld with
        | .tableID =>
          match heapGet heap target with
          | some (.table trs _ style) => (heapSetData heap target (.table trs s style), none)
          | _ => (heap, none)

/-- Models the Go `Parser` struct: the node pointers become heap ids.  `first`
is the caller-supplied root node, `stack` the ordered ancestors (appended at
the end as Go does), `last` the node currently receiving events. -/
structure Parser where
  heap : List Obj
  stack : List Nat
  last : Option Nat
  first : Nat
deriving DecidableEq, Repr

/-- Models NewParser: the root node is the only allocated object. -/
def NewParser (n : NodeData) : Parser :=
  { heap := [⟨⟨"", ""⟩, n⟩], stack := [], last := none, first := 0 }

/-- Result of one ParseToken call.  `goPanic` models the Go runtime panic from
calling a method on the nil `p.last` interface; `err` carries the parser in
the state it had when the method returned the error (Go mutates in place). -/
inductive ParseResult where
  | goPanic
  | err (msg : String) (p : Parser)
  | ok (p : Parser)
deriving DecidableEq, Repr

/-- True when the result is the `err` case. -/
def ParseResult.isErr : ParseResult → Bool
  | .err _ _ => true
  | _ => false

/-- Models the attribute loop at the end of ParseToken's StartElement case:
forward attributes in order to attrCallback, returning the error of the first
failing one immediately (mutations already performed are kept). -/
def attrLoop (pr : Parser) (selfId : Nat) : List Attr → ParseResult
  | [] => .ok pr
  | a :: rest =>
      let res := attrCallback pr.heap selfId a
      let pr' := { pr with heap := res.1 }
      match res.2 with
      | some e => .err e pr'
      | none => attrLoop pr' selfId rest

/-- Models Parser.ParseToken (src/unnamed/part_000 lines 88-128).  The
EndElement case calls `p.last.GetXMLName()` without a nil check in Go; with
`last = none` that is a nil-interface method call, i.e. a panic. -/
def ParseToken (pr : Parser) (token : Token) : ParseResult :=
  match token with
  | .startElement name attrs =>
      match pr.last with
      | some lastId =>
          match tagCallback pr.heap lastId name with
          | .error e => .err e pr
          | .ok res =>
              let pr' :=
                { pr with heap := res.1, stack := pr.stack ++ [lastId], last := some res.2 }
              let pr'' := { pr' with heap := heapSetName pr'.heap res.2 name }
              attrLoop pr'' res.2 attrs
      | none =>
          let pr' := { pr with last := some pr.first }
          let pr'' := { pr' with heap := heapSetName pr'.heap pr.first name }
          attrLoop pr'' pr.first attrs
  | .endElement name =>
      match pr.last with
      | none => .goPanic
      | some lastId =>
          if heapGetName pr.heap lastId ≠ name then
            .err ("unexpected close tag " ++ name.Local) pr
          else
            match pr.stack.getLast? with
            | some top => .ok { pr with last := some top, stack := pr.stack.dropLast }
            | none => .ok { pr with last := none }
  | .charData s =>
      match pr.last with
      | some lastId =>
          let res := charDataCallback pr.heap lastId s
          match res.2 with
          | some e => .err e { pr with heap := res.1 }
          | none => .ok { pr with heap := res.1 }
      | none => .ok pr

/-- Models the token loop of Parser.Parse: the decoder is a finite token list
whose exhaustion is io.EOF.  The source reads `err = p.ParseToken(token)` and
never uses that value again (it is shadowed by the next `d.Token()` call), so
the loop continues past ParseToken errors and `parseErr` collects only
non-EOF decoder errors, of which a token list produces none.  A panic
propagates as `none`. -/
def ParseLoop (pr : Parser) (parseErr : List String) :
    List Token → Option (Parser × List String)
  | [] => some (pr, parseErr)
  | t :: rest =>
      match ParseToken pr t with
      | .goPanic => none
      | .err _ pr' => ParseLoop pr' parseErr rest
      | .ok pr' => ParseLoop pr' parseErr rest

/-- Models Parser.Parse (src/unnamed/part_000 lines 131-148): dispatch the
start token (return value discarded, as in the source), run the loop, and
return an error only if `parseErr` is non-empty.  The result is `none` when a
ParseToken call panicked, otherwise the final parser and Go's return value. -/
def Parse (pr : Parser) (start : Token) (toks : List Token) :
    Option (Parser × Option String) :=
  let afterStart :=
    match ParseToken pr start with
    | .goPanic => none
    | .err _ pr' => some pr'
    | .ok pr' => some pr'
  match afterStart with
  | none => none
  | some pr1 =>
      match ParseLoop pr1 [] toks with
      | none => none
      | some res =>
          if res.2.isEmpty then some (res.1, none)
          else some (res.1, some "error while parsing")

/-- Models the Contenter.GetContent read interface: content-bearing nodes
return their Content slice; Table.GetContent builds the list from its TR
slice; InlineImage (emptyContent) returns nil. -/
def GetContent (heap : List Obj) (i : Nat) : List ContentRef :=
  match heapGet heap i with
  | some (.styleType _ c) => c
  | some (.namedStyleType _ _ c) => c
  | some (.pNode _ _ _ c) => c
  | some (.link _ c) => c
  | some (.styleLinkType c) => c
  | some (.tdNode _ _ _ _ _ _ _ c) => c
  | some (.trNode _ c) => c
  | some (.table trs _ _) => trs.map ContentRef.ref
  | some (.inlineImage _ _ _) => []
  | some (.stringNode _ _) => []
  | none => []

/-- Character of the standard base64 alphabet at index `i` (encoding/base64
StdEncoding). -/
def b64Char (i : Nat) : Char :=
  if i < 26 then Char.ofNat (65 + i)
  else if i < 52 then Char.ofNat (97 + (i - 26))
  else if i < 62 then Char.ofNat (48 + (i - 52))
  else if i = 62 then '+' else '/'

/-- Index of a character in the standard base64 alphabet, none if invalid. -/
def b64Index (c : Char) : Option Nat :=
  if 'A' ≤ c ∧ c ≤ 'Z' then some (c.toNat - 65)
  else if 'a' ≤ c ∧ c ≤ 'z' then some (c.toNat - 97 + 26)
  else if '0' ≤ c ∧ c ≤ '9' then some (c.toNat - 48 + 52)
  else if c = '+' then some 62
  else if c = '/' then some 63
  else none

/-- The newline-free core of base64.StdEncoding.Decode: the source is
consumed in 4-character quanta, each quantum's bytes are written to the
destination before the next is read, and on the first corrupt quantum the
bytes written so far are returned together with the error, as Go's
CorruptInputError behaviour does (including emitting the final padding
quantum's bytes when trailing garbage follows it).  Newline handling is done
by the caller, see `goBase64Decode`. -/
def goBase64DecodeList : List Char → List Nat × Option String
  | [] => ([], none)
  | c0 :: c1 :: c2 :: c3 :: rest =>
      match b64Index c0, b64Index c1 with
      | some i0, some i1 =>
          if c2 = '=' then
            if c3 = '=' then
              ([i0 * 4 + i1 / 16], if rest = [] then none else some "illegal base64 data")
            else ([], some "illegal base64 data")
          else
            match b64Index c2 with
            | some i2 =>
                if c3 = '=' then
                  ([i0 * 4 + i1 / 16, (i1 % 16) * 16 + i2 / 4],
                    if rest = [] then none else some "illegal base64 data")
                else
                  match b64Index c3 with
                  | some i3 =>
                      let res := goBase64DecodeList rest
                      ([i0 * 4 + i1 / 16, (i1 % 16) * 16 + i2 / 4, (i2 % 4) * 64 + i3] ++ res.1,
                        res.2)
                  | none => ([], some "illegal base64 data")
            | none => ([], some "illegal base64 data")
      | _, _ => ([], some "illegal base64 data")
  | _ => ([], some "illegal base64 data")

/-- Models base64.StdEncoding.Decode over the bytes of a string.  Go's
decoder skips a \n or \r byte wherever it occurs while assembling quanta
(decodeQuantum's `j--` retry, and the skip loops inside the padding paths);
a skipped byte takes part in no quantum, so this equals deleting every
newline byte up front and running the quantum decoder on the remainder,
which is how it is written here.  Characters outside ASCII are invalid in
both views and corrupt the same quantum, so the bytes written before the
error agree with Go's on every input. -/
def goBase64Decode (s : String) : List Nat × Option String :=
  goBase64DecodeList (s.toList.filter (fun c => c != '\n' && c != '\r'))

/-- Standard base64 encoding of a byte list (with padding), used to state
that valid base64 content round-trips to the original bytes. -/
def goBase64EncodeList : List Nat → List Char
  | [] => []
  | [a] => [b64Char (a / 4), b64Char ((a % 4) * 16), '=', '=']
  | [a, b] => [b64Char (a / 4), b64Char ((a % 4) * 16 + b / 16), b64Char ((b % 16) * 4), '=']
  | a :: b :: c :: rest =>
      [b64Char (a / 4), b64Char ((a % 4) * 16 + b / 16), b64Char ((b % 16) * 4 + c / 64),
        b64Char (c % 64)] ++ goBase64EncodeList rest

/-- Standard base64 encoding as a string. -/
def goBase64Encode (bs : List Nat) : String :=
  String.mk (goBase64EncodeList bs)

/-- Models the Go `Binary` struct (src/unnamed/part_001): id and content-type
attributes plus the decoded payload bytes. -/
structure Binary where
  ID : String
  ContentType : String
  Value : List Nat
deriving DecidableEq, Repr

/-- Models Binary.charDataCallback (src/unnamed/part_001 lines 731-739):
`b.Value = make([]byte, len(cd))` allocates a zeroed buffer of len(cd) — the
byte length of the character data, `cd.utf8ByteSize` here; Decode fills a
prefix; on error that buffer (decoded prefix plus zero fill) is left in
Value because the truncation `b.Value = b.Value[:n]` is skipped by the early
return; on success Value is truncated to the decoded bytes. -/
def Binary.charDataCallback (b : Binary) (cd : String) : Binary × Option String :=
  let res := goBase64Decode cd
  match res.2 with
  | some e =>
      ({ b with Value := res.1 ++ List.replicate (cd.utf8ByteSize - res.1.length) 0 }, some e)
  | none => ({ b with Value := res.1 }, none)

/-- Models Binary.attrCallback (src/unnamed/part_001 lines 720-729). -/
def Binary.attrCallback (b : Binary) (a : Attr) : Binary × Option String :=
  if a.Name.Local = "content-type" then ({ b with ContentType := a.Value }, none)
  else if a.Name.Local = "id" then ({ b with ID := a.Value }, none)
  else (b, some ("unexpected attr " ++ a.Name.Local))

/-- The fixed calendar-date layout from xml_types.go. -/
def dateFormat : String := "2006-01-02"

/-- Models time.Time restricted to the calendar date the `dateFormat` layout
produces. -/
structure XMLDate where
  year : Nat
  month : Nat
  day : Nat
deriving DecidableEq, Repr

/-- Gregorian leap-year rule used by Go's time package. -/
def isLeapYear (y : Nat) : Bool :=
  y % 4 = 0 && (y % 100 != 0 || y % 400 = 0)

/-- Days in a month, as Go's time.Parse uses to validate the day field. -/
def daysInMonth (y m : Nat) : Nat :=
  if m = 2 then (if isLeapYear y then 29 else 28)
  else if m = 4 ∨ m = 6 ∨ m = 9 ∨ m = 11 then 30
  else 31

/-- Models time.Parse(dateFormat, s): exactly four digits, a dash, two
digits, a dash, two digits, with the month in 1..12 and the day within the
month, otherwise an error (none). -/
def goTimeParseDate (s : String) : Option XMLDate :=
  match s.toList with
  | [y1, y2, y3, y4, h1, m1, m2, h2, d1, d2] =>
      if y1.isDigit ∧ y2.isDigit ∧ y3.isDigit ∧ y4.isDigit ∧ h1 = '-' ∧
          m1.isDigit ∧ m2.isDigit ∧ h2 = '-' ∧ d1.isDigit ∧ d2.isDigit then
        let y := ((((y1.toNat - 48) * 10 + (y2.toNat - 48)) * 10 + (y3.toNat - 48)) * 10 +
          (y4.toNat - 48))
        let m := (m1.toNat - 48) * 10 + (m2.toNat - 48)
        let d := (d1.toNat - 48) * 10 + (d2.toNat - 48)
        if 1 ≤ m ∧ m ≤ 12 ∧ 1 ≤ d ∧ d ≤ daysInMonth y m then some ⟨y, m, d⟩
        else none
      else none
  | _ => none

/-- Models the Go `Date` struct (src/unnamed/part_001): the optional parsed
value attribute, the language attribute and the raw character data. -/
structure Date where
  Value : Option XMLDate
  Lang : String
  StrValue : String
deriving DecidableEq, Repr

/-- Models Date.attrCallback (src/unnamed/part_001 lines 826-839): a `value`
attribute is parsed with the fixed layout, a parse error is returned before
Value is assigned; `lang` is stored; anything else is baseNode's error. -/
def Date.attrCallback (d : Date) (a : Attr) : Date × Option String :=
  if a.Name.Local = "value" then
    match goTimeParseDate a.Value with
    | none => (d, some ("cannot parse " ++ a.Value))
    | some t => ({ d with Value := some t }, none)
  else if a.Name.Local = "lang" then ({ d with Lang := a.Value }, none)
  else (d, some ("unexpected attr " ++ a.Name.Local))

/-- Models Date.charDataCallback (src/unnamed/part_001 lines 841-844). -/
def Date.charDataCallback (d : Date) (s : String) : Date × Option String :=
  ({ d with StrValue := s }, none)

/-- Models the Go `FictionBook` struct (src/unnamed/part_001): the child
pointers become heap-style ids so that rebinding a slot is observable. -/
structure FictionBook where
  Stylesheet : List Nat
  Description : Option Nat
  Body : Option Nat
  NotesBody : Option Nat
  Binary : List Nat
deriving DecidableEq, Repr

/-- Models FictionBook.tagCallback (src/unnamed/part_001 lines 448-474).
`fresh` stands for the address of the child struct the callback allocates;
the callback returns the updated FictionBook and that child, or the error.
A body with no attributes is always bound to the Body slot; a body whose
first attribute is name="notes" is bound to NotesBody; any other attributed
body is the error case. -/
def FictionBook.tagCallback (f : FictionBook) (fresh : Nat) (name : XmlName)
    (attrs : List Attr) : Except String (FictionBook × Nat) :=
  match name.Local with
  | "stylesheet" => .ok ({ f with Stylesheet := f.Stylesheet ++ [fresh] }, fresh)
  | "description" => .ok ({ f with Description := some fresh }, fresh)
  | "body" =>
      match attrs with
      | [] => .ok ({ f with Body := some fresh }, fresh)
      | a0 :: _ =>
          if a0.Name.Local = "name" ∧ a0.Value = "notes" then
            .ok ({ f with NotesBody := some fresh }, fresh)
          else
            .error ("Unknown body with attr " ++ a0.Name.Local)
  | "binary" => .ok ({ f with Binary := f.Binary ++ [fresh] }, fresh)
  | _ => .error ("unexpected tag " ++ name.Local)

/-- Decidable equality for Except results, used to state callback outcomes. -/
instance {ε α : Type} [DecidableEq ε] [DecidableEq α] : DecidableEq (Except ε α) :=
  fun x y =>
    match x, y with
    | .error e1, .error e2 => decidable_of_iff (e1 = e2) (by simp)
    | .ok a1, .ok a2 => decidable_of_iff (a1 = a2) (by simp)
    | .error _, .ok _ => isFalse (by simp)
    | .ok _, .error _ => isFalse (by simp)

/-- Decoding inverts the alphabet on valid indices. -/
theorem b64_round : ∀ i < 64, b64Index (b64Char i) = some i := by decide

/-- No alphabet character is the padding character. -/
theorem b64Char_ne_pad : ∀ i < 64, b64Char i ≠ '=' := by decide

/-- Decoding a standard base64 encoding returns exactly the original bytes
and no error. -/
theorem decode_encode : ∀ bs : List Nat, (∀ x ∈ bs, x < 256) →
    goBase64DecodeList (goBase64EncodeList bs) = (bs, none)
  | [], _ => by simp [goBase64EncodeList, goBase64DecodeList]
  | [a], h => by
      have ha : a < 256 := h a (by simp)
      have h0 : a / 4 < 64 := by omega
      have h1 : (a % 4) * 16 < 64 := by omega
      simp only [goBase64EncodeList, List.append_eq, List.cons_append, List.nil_append,
        goBase64DecodeList, b64_round _ h0, b64_round _ h1, if_pos rfl]
      simp only [Prod.mk.injEq, List.cons.injEq, and_true, if_true]
      omega
  | [a, b], h => by
      have ha : a < 256 := h a (by simp)
      have hb : b < 256 := h b (by simp)
      have h0 : a / 4 < 64 := by omega
      have h1 : (a % 4) * 16 + b / 16 < 64 := by omega
      have h2 : (b % 16) * 4 < 64 := by omega
      simp only [goBase64EncodeList, List.append_eq, List.cons_append, List.nil_append,
        goBase64DecodeList, b64_round _ h0, b64_round _ h1, b64_round _ h2,
        if_neg (b64Char_ne_pad _ h2), if_pos rfl]
      simp only [Prod.mk.injEq, List.cons.injEq, and_true, if_true]
      omega
  | a :: b :: c :: rest, h => by
      have ha : a < 256 := h a (by simp)
      have hb : b < 256 := h b (by simp)
      have hc : c < 256 := h c (by simp)
      have h0 : a / 4 < 64 := by omega
      have h1 : (a % 4) * 16 + b / 16 < 64 := by omega
      have h2 : (b % 16) * 4 + c / 64 < 64 := by omega
      have h3 : c % 64 < 64 := by omega
      have ih := decode_encode rest (fun x hx => h x (by simp [hx]))
      simp only [goBase64EncodeList, List.append_eq, List.cons_append, List.nil_append,
        goBase64DecodeList, b64_round _ h0, b64_round _ h1, b64_round _ h2, b64_round _ h3,
        if_neg (b64Char_ne_pad _ h2), if_neg (b64Char_ne_pad _ h3), ih]
      simp only [Prod.mk.injEq, List.cons.injEq, and_true, true_and, and_self]
      omega

/-- Claim C10: a close-tag token arriving while no element is open makes
ParseToken dereference the nil current node: the call panics instead of
returning an error value. -/
theorem parseToken_close_with_nil_current_panics (pr : Parser) (nm : XmlName)
    (h : pr.last = none) : ParseToken pr (.endElement nm) = .goPanic := by
  simp [ParseToken, h]

/-- Witness for C10 at a freshly constructed parser and the close tag div. -/
theorem parseToken_close_nil_witness :
    (NewParser (.styleType "" [])).last = none ∧
    ParseToken (NewParser (.styleType "" [])) (.endElement ⟨"", "div"⟩) = .goPanic :=
  ⟨rfl, parseToken_close_with_nil_current_panics (NewParser (.styleType "" [])) ⟨"", "div"⟩ rfl⟩

/-- Root parser for the mismatched-close run: a StyleType node. -/
def c1Parser : Parser := NewParser (.styleType "" [])

/-- Token stream opening strong, closing div (mismatch), then more tokens. -/
def c1Tokens : List Token :=
  [.startElement ⟨"", "strong"⟩ [], .endElement ⟨"", "div"⟩, .charData "after",
    .endElement ⟨"", "strong"⟩, .endElement ⟨"", "p"⟩]

/-- The run of Parse over the mismatched-close stream. -/
def c1Run : Option (Parser × Option String) :=
  Parse c1Parser (.startElement ⟨"", "p"⟩ []) c1Tokens

/-- The parser state right after p and strong have been opened. -/
def c1Mid : Parser :=
  { heap := [⟨⟨"", "p"⟩, .styleType "" [.ref 1]⟩, ⟨⟨"", "strong"⟩, .styleType "" []⟩],
    stack := [0], last := some 1, first := 0 }

/-- Claim C1 (behaviour at the failing input): ParseToken does return an
error on the mismatched close div, but Parse discards it (the `err =`
assignment in the loop is never read): the loop keeps dispatching — the
char data after the mismatch still reaches the strong node — runs the stream
to completion (last becomes none) and returns nil instead of the fatal
error. -/
theorem parse_discards_mismatched_close_error :
    (ParseToken c1Mid (.endElement ⟨"", "div"⟩)).isErr = true ∧
    (c1Run.map fun r => (r.2, GetContent r.1.heap 1, r.1.last)) =
      some (none, [.cd "after"], none) := by decide

/-- Root parser for the unknown-child run: a StyleType node. -/
def c2Parser : Parser := NewParser (.styleType "" [])

/-- Stream with an unknown child foo between text runs, then a strong
sibling. -/
def c2Tokens : List Token :=
  [.charData "a", .startElement ⟨"", "foo"⟩ [], .charData "inner", .endElement ⟨"", "foo"⟩,
    .charData "b", .startElement ⟨"", "strong"⟩ [], .charData "bold",
    .endElement ⟨"", "strong"⟩, .endElement ⟨"", "p"⟩]

/-- The run of Parse over the unknown-child stream. -/
def c2Run : Option (Parser × Option String) :=
  Parse c2Parser (.startElement ⟨"", "p"⟩ []) c2Tokens

/-- Claim C2 (behaviour at the failing input): the unknown tag foo does make
tagCallback return an error, and the later sibling text and the strong
element do survive in the parent's GetContent, but Parse discards the error
instead of recording it into the aggregate result (it returns nil), and the
unknown subtree's character data leaks into the parent's content. -/
theorem parse_discards_unknown_tag_error :
    tagCallback [⟨⟨"", "p"⟩, .styleType "" []⟩] 0 ⟨"", "foo"⟩ =
      .error "unexpected tag foo" ∧
    (c2Run.map fun r =>
        (r.2, GetContent r.1.heap 0, heapGetName r.1.heap 1, GetContent r.1.heap 1)) =
      some (none, [.cd "a", .cd "inner", .cd "b", .ref 1], ⟨"", "strong"⟩, [.cd "bold"]) := by
  decide

/-- Root parser for the attribute-error run: a TD node. -/
def c3Parser : Parser := NewParser (.tdNode "" "" 0 0 "" "" "" [])

/-- Open td with a malformed colspan followed by a well-formed align. -/
def c3Start : Token :=
  .startElement ⟨"", "td"⟩ [⟨⟨"", "colspan"⟩, "x"⟩, ⟨⟨"", "align"⟩, "left"⟩]

/-- Claim C3 (behaviour at the failing input): the malformed colspan makes
ParseToken return an error immediately, so the later align attribute is
never forwarded (Align stays empty), and the enclosing Parse discards the
error and returns nil instead of collecting it. -/
theorem parse_attr_error_skips_rest_and_is_discarded :
    (ParseToken c3Parser c3Start).isErr = true ∧
    Parse c3Parser c3Start [] =
      some ({ heap := [⟨⟨"", "td"⟩, .tdNode "" "" 0 0 "" "" "" []⟩], stack := [],
              last := some 0, first := 0 }, none) := by decide

/-- Root parser for the inline-markup run: a StyleType node. -/
def c4Parser : Parser := NewParser (.styleType "" [])

/-- The inline markup stream text-a, strong containing bold, text-b. -/
def c4Tokens : List Token :=
  [.charData "text-a", .startElement ⟨"", "strong"⟩ [], .charData "bold",
    .endElement ⟨"", "strong"⟩, .charData "text-b", .endElement ⟨"", "p"⟩]

/-- The run of Parse over the inline-markup stream. -/
def c4Run : Option (Parser × Option String) :=
  Parse c4Parser (.startElement ⟨"", "p"⟩ []) c4Tokens

/-- Claim C4: parsing text-a, strong with bold, text-b into a StyleType node
yields GetContent equal to exactly text text-a, the strong element (whose own
content is exactly text bold), text text-b, in document order. -/
theorem styleType_mixed_content_document_order :
    (c4Run.map fun r => (GetContent r.1.heap 0, heapGetName r.1.heap 1, GetContent r.1.heap 1)) =
      some ([.cd "text-a", .ref 1, .cd "text-b"], ⟨"", "strong"⟩, [.cd "bold"]) := by decide

/-- No character of the base64 alphabet is a newline. -/
theorem b64Char_not_newline : ∀ i < 64, (b64Char i != '\n' && b64Char i != '\r') = true := by
  decide

/-- Encoder output contains no newline characters, so the decoder's newline
filter leaves it unchanged. -/
theorem encode_no_newline : ∀ bs : List Nat, (∀ x ∈ bs, x < 256) →
    (goBase64EncodeList bs).filter (fun c => c != '\n' && c != '\r') = goBase64EncodeList bs
  | [], _ => rfl
  | [a], h => by
      have ha : a < 256 := h a (by simp)
      have h0 : a / 4 < 64 := by omega
      have h1 : (a % 4) * 16 < 64 := by omega
      simp [goBase64EncodeList, List.filter, b64Char_not_newline _ h0, b64Char_not_newline _ h1]
  | [a, b], h => by
      have ha : a < 256 := h a (by simp)
      have hb : b < 256 := h b (by simp)
      have h0 : a / 4 < 64 := by omega
      have h1 : (a % 4) * 16 + b / 16 < 64 := by omega
      have h2 : (b % 16) * 4 < 64 := by omega
      simp [goBase64EncodeList, List.filter, b64Char_not_newline _ h0, b64Char_not_newline _ h1,
        b64Char_not_newline _ h2]
  | a :: b :: c :: d :: rest, h => by
      have ha : a < 256 := h a (by simp)
      have hb : b < 256 := h b (by simp)
      have hc : c < 256 := h c (by simp)
      have h0 : a / 4 < 64 := by omega
      have h1 : (a % 4) * 16 + b / 16 < 64 := by omega
      have h2 : (b % 16) * 4 + c / 64 < 64 := by omega
      have h3 : c % 64 < 64 := by omega
      have ih := encode_no_newline (d :: rest) (fun x hx => h x (by simp [hx]))
      simp [goBase64EncodeList, List.filter_append, List.filter, b64Char_not_newline _ h0,
        b64Char_not_newline _ h1, b64Char_not_newline _ h2, b64Char_not_newline _ h3, ih]
  | [a, b, c], h => by
      have ha : a < 256 := h a (by simp)
      have hb : b < 256 := h b (by simp)
      have hc : c < 256 := h c (by simp)
      have h0 : a / 4 < 64 := by omega
      have h1 : (a % 4) * 16 + b / 16 < 64 := by omega
      have h2 : (b % 16) * 4 + c / 64 < 64 := by omega
      have h3 : c % 64 < 64 := by omega
      simp [goBase64EncodeList, List.filter_append, List.filter, b64Char_not_newline _ h0,
        b64Char_not_newline _ h1, b64Char_not_newline _ h2, b64Char_not_newline _ h3]

/-- Decoding a standard base64 encoding at the string level returns exactly
the original bytes and no error. -/
theorem decode_encode_str (bs : List Nat) (h : ∀ x ∈ bs, x < 256) :
    goBase64Decode (goBase64Encode bs) = (bs, none) := by
  unfold goBase64Decode goBase64Encode
  rw [show (String.mk (goBase64EncodeList bs)).toList = goBase64EncodeList bs from rfl,
    encode_no_newline bs h, decode_encode bs h]

/-- Equation form of Binary.charDataCallback by cases on the decode result. -/
theorem charDataCallback_eq (b : Binary) (cd : String) :
    Binary.charDataCallback b cd =
      match goBase64Decode cd with
      | (w, some e) =>
          ({ b with Value := w ++ List.replicate (cd.utf8ByteSize - w.length) 0 }, some e)
      | (w, none) => ({ b with Value := w }, none) := by
  unfold Binary.charDataCallback
  rcases h : goBase64Decode cd with ⟨w, err⟩
  cases err <;> rfl

/-- Counterexample for claim C6: on the malformed payload aGVs#### the
callback returns an error but Value holds the decoded prefix hel followed by
zero fill, input-length bytes in total — bytes were emitted. -/
theorem malformed_base64_leaves_partial_bytes :
    Binary.charDataCallback ⟨"", "", []⟩ "aGVs####" =
      (⟨"", "", [104, 101, 108, 0, 0, 0, 0, 0]⟩, some "illegal base64 data") ∧
    (Binary.charDataCallback ⟨"", "", []⟩ "aGVs####").1.Value ≠ [] := by decide

/-- Claim C6 (amended): content the decoder accepts — including canonical
encodings of any byte list and newline-wrapped payloads — stores exactly the
decoded bytes in Value with no error; malformed base64 returns a recoverable
error while Value is left holding the allocated buffer of the input's byte
length — the decoded prefix plus zero fill — because the truncation step is
skipped by the early return. -/
theorem binary_base64_decode_behaviour (b : Binary) (bs : List Nat) (cd ok e : String)
    (hb : ∀ x ∈ bs, x < 256) (hok : (goBase64Decode ok).2 = none)
    (he : (goBase64Decode cd).2 = some e) :
    Binary.charDataCallback b (goBase64Encode bs) = ({ b with Value := bs }, none) ∧
    Binary.charDataCallback b ok = ({ b with Value := (goBase64Decode ok).1 }, none) ∧
    (Binary.charDataCallback b cd).2 = some e ∧
    (Binary.charDataCallback b cd).1.Value =
      (goBase64Decode cd).1 ++
        List.replicate (cd.utf8ByteSize - (goBase64Decode cd).1.length) 0 := by
  have h1 : goBase64Decode (goBase64Encode bs) = (bs, none) := decode_encode_str bs hb
  have hpair : goBase64Decode cd = ((goBase64Decode cd).1, some e) := by
    rw [← he]
  have hpok : goBase64Decode ok = ((goBase64Decode ok).1, none) := by
    rw [← hok]
  refine ⟨?_, ?_, ?_, ?_⟩
  · rw [charDataCallback_eq, h1]
  · rw [charDataCallback_eq, hpok]
  · rw [charDataCallback_eq, hpair]
  · rw [charDataCallback_eq, hpair]

/-- Witness for C6 at the bytes of hello, the newline-wrapped valid payload
aGVs-newline-bG8=, and the corrupt payload ####. -/
theorem binary_base64_decode_witness :
    Binary.charDataCallback ⟨"", "", []⟩ (goBase64Encode [104, 101, 108, 108, 111]) =
      (⟨"", "", [104, 101, 108, 108, 111]⟩, none) ∧
    Binary.charDataCallback ⟨"", "", []⟩ "aGVs\nbG8=" =
      (⟨"", "", [104, 101, 108, 108, 111]⟩, none) ∧
    (Binary.charDataCallback ⟨"", "", []⟩ "####").2 = some "illegal base64 data" ∧
    (Binary.charDataCallback ⟨"", "", []⟩ "####").1.Value =
      (goBase64Decode "####").1 ++
        List.replicate ("####".utf8ByteSize - (goBase64Decode "####").1.length) 0 :=
  ⟨(binary_base64_decode_behaviour ⟨"", "", []⟩ [104, 101, 108, 108, 111] "####" "aGVs\nbG8="
      "illegal base64 data" (by decide) (by decide) (by decide)).1,
   (binary_base64_decode_behaviour ⟨"", "", []⟩ [104, 101, 108, 108, 111] "####" "aGVs\nbG8="
      "illegal base64 data" (by decide) (by decide) (by decide)).2.1,
   (binary_base64_decode_behaviour ⟨"", "", []⟩ [104, 101, 108, 108, 111] "####" "aGVs\nbG8="
      "illegal base64 data" (by decide) (by decide) (by decide)).2.2.1,
   (binary_base64_decode_behaviour ⟨"", "", []⟩ [104, 101, 108, 108, 111] "####" "aGVs\nbG8="
      "illegal base64 data" (by decide) (by decide) (by decide)).2.2.2⟩

/-- Claim C7: a value attribute that fails the fixed calendar-date parse
returns an error with the whole Date unchanged (Value stays absent, the raw
StrValue untouched); a parsing value sets Value to the parsed date; and
character data is stored in StrValue without touching Value, so the raw
string is retained regardless of the attribute's outcome. -/
theorem date_value_attr_atomic_and_raw_retained (d : Date) (sp v s : String) :
    (goTimeParseDate v = none →
      (Date.attrCallback d ⟨⟨sp, "value"⟩, v⟩).2.isSome = true ∧
        (Date.attrCallback d ⟨⟨sp, "value"⟩, v⟩).1 = d) ∧
    (∀ t, goTimeParseDate v = some t →
      Date.attrCallback d ⟨⟨sp, "value"⟩, v⟩ = ({ d with Value := some t }, none)) ∧
    Date.charDataCallback d s = ({ d with StrValue := s }, none) := by
  refine ⟨fun hn => ?_, fun t ht => ?_, rfl⟩
  · simp [Date.attrCallback, hn]
  · simp [Date.attrCallback, ht]

/-- Witness for C7 at the invalid value 2004-13-01 and the valid 2004-01-27. -/
theorem date_value_attr_witness :
    ((Date.attrCallback ⟨none, "", "raw"⟩ ⟨⟨"", "value"⟩, "2004-13-01"⟩).2.isSome = true ∧
      (Date.attrCallback ⟨none, "", "raw"⟩ ⟨⟨"", "value"⟩, "2004-13-01"⟩).1 = ⟨none, "", "raw"⟩) ∧
    Date.attrCallback ⟨none, "", "raw"⟩ ⟨⟨"", "value"⟩, "2004-01-27"⟩ =
      (⟨some ⟨2004, 1, 27⟩, "", "raw"⟩, none) ∧
    Date.charDataCallback ⟨some ⟨2004, 1, 27⟩, "", ""⟩ "raw text" =
      (⟨some ⟨2004, 1, 27⟩, "", "raw text"⟩, none) :=
  ⟨(date_value_attr_atomic_and_raw_retained ⟨none, "", "raw"⟩ "" "2004-13-01" "x").1
      (by decide),
   (date_value_attr_atomic_and_raw_retained ⟨none, "", "raw"⟩ "" "2004-01-27" "x").2.1
      ⟨2004, 1, 27⟩ (by decide),
   (date_value_attr_atomic_and_raw_retained ⟨some ⟨2004, 1, 27⟩, "", ""⟩ "" "v" "raw text").2.2⟩

/-- Counterexample for claim C8: a plain href followed by an xlink-namespaced
href leaves a Link whose only non-empty field is XlinkHref holding the second
value; the first value is stored nowhere — the two href attributes collapsed
into a single field. -/
theorem link_href_namespaces_collapse :
    (Link.attrCallback (Link.attrCallback ⟨"", "", ""⟩ ⟨⟨"", "href"⟩, "plain-target"⟩).1
        ⟨⟨"http://www.w3.org/1999/xlink", "href"⟩, "xlink-target"⟩).1 =
      ⟨"", "xlink-target", ""⟩ := by decide

/-- Claim C8 (amended): the type attribute is namespace-disambiguated — an
unqualified type is stored in the Type field and a namespaced one in
XlinkType — but href ignores the namespace entirely: both an unqualified and
a namespaced href are written to the single XlinkHref field, so the later one
overwrites the earlier. -/
theorem link_attr_disambiguation (l : Link) (sp v : String) (hsp : sp ≠ "") :
    Link.attrCallback l ⟨⟨"", "type"⟩, v⟩ = ({ l with Type' := v }, none) ∧
    Link.attrCallback l ⟨⟨sp, "type"⟩, v⟩ = ({ l with XlinkType := v }, none) ∧
    Link.attrCallback l ⟨⟨sp, "href"⟩, v⟩ = ({ l with XlinkHref := v }, none) := by
  refine ⟨rfl, ?_, rfl⟩
  simp [Link.attrCallback, hsp]

/-- Witness for C8 at the xlink namespace. -/
theorem link_attr_disambiguation_witness :
    Link.attrCallback ⟨"", "", ""⟩ ⟨⟨"", "type"⟩, "note"⟩ = (⟨"", "", "note"⟩, none) ∧
    Link.attrCallback ⟨"", "", ""⟩ ⟨⟨"http://www.w3.org/1999/xlink", "type"⟩, "simple"⟩ =
      (⟨"simple", "", ""⟩, none) ∧
    Link.attrCallback ⟨"", "", ""⟩ ⟨⟨"http://www.w3.org/1999/xlink", "href"⟩, "#n1"⟩ =
      (⟨"", "#n1", ""⟩, none) :=
  ⟨(link_attr_disambiguation ⟨"", "", ""⟩ "http://www.w3.org/1999/xlink" "note"
      (by decide)).1,
   (link_attr_disambiguation ⟨"", "", ""⟩ "http://www.w3.org/1999/xlink" "simple"
      (by decide)).2.1,
   (link_attr_disambiguation ⟨"", "", ""⟩ "http://www.w3.org/1999/xlink" "#n1"
      (by decide)).2.2⟩

/-- Counterexample for claim C5: dispatching a second body with no attributes
succeeds without any error and silently rebinds the Body slot from the first
child to the second. -/
theorem second_unmarked_body_silently_rebinds :
    FictionBook.tagCallback ⟨[], none, none, none, []⟩ 1 ⟨"", "body"⟩ [] =
      .ok (⟨[], none, some 1, none, []⟩, 1) ∧
    FictionBook.tagCallback ⟨[], none, some 1, none, []⟩ 2 ⟨"", "body"⟩ [] =
      .ok (⟨[], none, some 2, none, []⟩, 2) := by decide

/-- Claim C5 (amended): a body with no attributes is always bound to the main
Body slot — also when the slot is already occupied, so a second unmarked body
is silently accepted and overwrites it; a body whose first attribute is
name="notes" is bound to NotesBody; a body with a nonempty attribute list not
starting with name="notes" is the recoverable error case. -/
theorem fictionBook_body_dispatch (f : FictionBook) (fresh : Nat) (sp : String) :
    FictionBook.tagCallback f fresh ⟨sp, "body"⟩ [] =
      .ok ({ f with Body := some fresh }, fresh) ∧
    (∀ a0 rest, a0.Name.Local = "name" → a0.Value = "notes" →
      FictionBook.tagCallback f fresh ⟨sp, "body"⟩ (a0 :: rest) =
        .ok ({ f with NotesBody := some fresh }, fresh)) ∧
    (∀ a0 rest, ¬(a0.Name.Local = "name" ∧ a0.Value = "notes") →
      FictionBook.tagCallback f fresh ⟨sp, "body"⟩ (a0 :: rest) =
        .error ("Unknown body with attr " ++ a0.Name.Local)) := by
  refine ⟨rfl, fun a0 rest h1 h2 => ?_, fun a0 rest h => ?_⟩
  · simp [FictionBook.tagCallback, h1, h2]
  · simp [FictionBook.tagCallback, h]

/-- Witness for C5 at an empty FictionBook and concrete attribute lists. -/
theorem fictionBook_body_dispatch_witness :
    FictionBook.tagCallback ⟨[], none, none, none, []⟩ 7 ⟨"", "body"⟩ [] =
      .ok (⟨[], none, some 7, none, []⟩, 7) ∧
    FictionBook.tagCallback ⟨[], none, none, none, []⟩ 8 ⟨"", "body"⟩
        [⟨⟨"", "name"⟩, "notes"⟩] =
      .ok (⟨[], none, none, some 8, []⟩, 8) ∧
    FictionBook.tagCallback ⟨[], none, none, none, []⟩ 9 ⟨"", "body"⟩
        [⟨⟨"", "type"⟩, "x"⟩] =
      .error "Unknown body with attr type" :=
  ⟨(fictionBook_body_dispatch ⟨[], none, none, none, []⟩ 7 "").1,
   (fictionBook_body_dispatch ⟨[], none, none, none, []⟩ 8 "").2.1
      ⟨⟨"", "name"⟩, "notes"⟩ [] rfl rfl,
   (fictionBook_body_dispatch ⟨[], none, none, none, []⟩ 9 "").2.2
      ⟨⟨"", "type"⟩, "x"⟩ [] (by decide)⟩

/-- Root parser for the table run: a Table node. -/
def c9Parser : Parser := NewParser (.table [] "" "")

/-- Two tr rows, the first with three td cells, the second with three th
cells, each properly closed. -/
def c9Tokens : List Token :=
  [.startElement ⟨"", "tr"⟩ [], .startElement ⟨"", "td"⟩ [], .endElement ⟨"", "td"⟩,
    .startElement ⟨"", "td"⟩ [], .endElement ⟨"", "td"⟩,
    .startElement ⟨"", "td"⟩ [], .endElement ⟨"", "td"⟩, .endElement ⟨"", "tr"⟩,
    .startElement ⟨"", "tr"⟩ [], .startElement ⟨"", "th"⟩ [], .endElement ⟨"", "th"⟩,
    .startElement ⟨"", "th"⟩ [], .endElement ⟨"", "th"⟩,
    .startElement ⟨"", "th"⟩ [], .endElement ⟨"", "th"⟩, .endElement ⟨"", "tr"⟩,
    .endElement ⟨"", "table"⟩]

/-- The run of Parse over the table stream. -/
def c9Run : Option (Parser × Option String) :=
  Parse c9Parser (.startElement ⟨"", "table"⟩ []) c9Tokens

/-- Claim C9: a table of 2 rows with 3 cells each yields a GetContent of
length 2 (the rows, in document order), and each row's GetContent has
length 3 (its cells, in document order). -/
theorem table_two_rows_three_cells :
    (c9Run.map fun r =>
        (GetContent r.1.heap 0, GetContent r.1.heap 1, GetContent r.1.heap 5)) =
      some ([.ref 1, .ref 5], [.ref 2, .ref 3, .ref 4], [.ref 6, .ref 7, .ref 8]) ∧
    (c9Run.map fun r =>
        ((GetContent r.1.heap 0).length, (GetContent r.1.heap 1).length,
          (GetContent r.1.heap 5).length)) = some (2, 3, 3) := by decide
